import Mathlib

set_option maxRecDepth 200000
set_option exponentiation.threshold 3000

/-!
Shallow embedding of the receipt-processor service
(`models.py`, `receipt_processor.py`, `main.py`).

Python strings are modelled as `List Char`.  The character classes used by the
source (`str.isalnum`, the regex classes `\w` and `\d`) are modelled on the
ASCII range; non-ASCII alphanumerics are outside the scope of this embedding
(every string constraint in the development is exercised on ASCII data).
Python's `str.strip` / `str.isspace` whitespace set is modelled in full.
-/

/-- Characters removed by Python's `str.strip()` (the `str.isspace` set). -/
def pyIsSpace (c : Char) : Bool :=
  c.toNat == 32 || (9 ≤ c.toNat && c.toNat ≤ 13) || (28 ≤ c.toNat && c.toNat ≤ 31) ||
  c.toNat == 133 || c.toNat == 160 || c.toNat == 5760 ||
  (8192 ≤ c.toNat && c.toNat ≤ 8202) || c.toNat == 8232 || c.toNat == 8233 ||
  c.toNat == 8239 || c.toNat == 8287 || c.toNat == 12288

/-- ASCII decimal digit, the model of the regex class `\d`. -/
def isDigitChar (c : Char) : Bool :=
  48 ≤ c.toNat && c.toNat ≤ 57

/-- Numeric value of an ASCII digit character. -/
def digitVal (c : Char) : Nat := c.toNat - 48

/-- Python `str.isalnum` restricted to ASCII: letters or digits. -/
def pyIsAlnum (c : Char) : Bool :=
  (65 ≤ c.toNat && c.toNat ≤ 90) || (97 ≤ c.toNat && c.toNat ≤ 122) || isDigitChar c

/-- Model of the regex class `\w`: alphanumeric or underscore (ASCII range). -/
def pyIsWordChar (c : Char) : Bool :=
  pyIsAlnum c || c.toNat == 95

/-- Remove leading whitespace, the left half of Python `str.strip()`. -/
def pyLTrim (s : List Char) : List Char := s.dropWhile pyIsSpace

/-- Python `str.strip()`: drop leading whitespace, then (via reversal) trailing
whitespace. -/
def pyStrip (s : List Char) : List Char :=
  (pyLTrim (pyLTrim s).reverse).reverse

/-- The `models.py` constant `RETAILER_PATTERN = r"^[\w\s\-&]+$"`: one or more
characters, each a word character, whitespace, hyphen or ampersand. -/
def matchesRetailer (s : List Char) : Bool :=
  !s.isEmpty && s.all (fun c => pyIsWordChar c || pyIsSpace c || c.toNat == 45 || c.toNat == 38)

/-- The `models.py` constant `DESC_PATTERN = r"^[\w\s\-]+$"`. -/
def matchesDesc (s : List Char) : Bool :=
  !s.isEmpty && s.all (fun c => pyIsWordChar c || pyIsSpace c || c.toNat == 45)

/-- Value of a digit run read in base 10. -/
def natOfDigits (l : List Char) : Nat :=
  l.foldl (fun a c => 10 * a + digitVal c) 0

/-- Exact decimal value, in cents, of a string of the shape `\d+\.\d{2}`
(the `PRICE_PATTERN` of `models.py`); `none` when the string does not have that
shape. -/
def centsOfPrice (s : List Char) : Option Nat :=
  let ds := s.takeWhile isDigitChar
  match s.dropWhile isDigitChar with
  | ['.', a, b] =>
      if !ds.isEmpty && isDigitChar a && isDigitChar b then
        some (100 * natOfDigits ds + 10 * digitVal a + digitVal b)
      else none
  | _ => none

/-- The `models.py` constant `PRICE_PATTERN = r"^\d+\.\d{2}$"`. -/
def matchesPrice (s : List Char) : Bool :=
  (centsOfPrice s).isSome

/-- Digits, optionally followed by a point and digits, with at least one digit:
the plain-number core of the `decimal.Decimal` literal grammar. -/
def decimalDigitsOk (u : List Char) : Bool :=
  let ip := u.takeWhile isDigitChar
  match u.dropWhile isDigitChar with
  | [] => !ip.isEmpty
  | '.' :: fp => fp.all isDigitChar && (!ip.isEmpty || !fp.isEmpty)
  | _ => false

/-- All digits of a decimal literal are zero (so its value is zero). -/
def decimalAllZero (u : List Char) : Bool :=
  u.all (fun c => c.toNat == 48 || c.toNat == 46)

/-- Models the `Decimal(s)`-parses-and-`value >= 0` check performed by the
`model_validator`s in `models.py`.  Restriction of the embedding: only the
plain literal grammar `[ws] [sign] digits [. digits] [ws]` is modelled
(exponent forms, `Infinity` and `NaN` are not; no validated input uses them).
A negative literal passes only when its value is zero, since the source
rejects `value < 0`. -/
def decimalNonnegOk (s : List Char) : Bool :=
  match pyStrip s with
  | '-' :: r => decimalDigitsOk r && decimalAllZero r
  | '+' :: r => decimalDigitsOk r
  | r => decimalDigitsOk r

/-- The field regex of `Receipt.purchaseDate`:
`^\d{4}-(?:0[1-9]|1[0-2])-(?:0[1-9]|[12]\d|3[01])$`, i.e. four digits, dash, a
two-digit month in 01..12, dash, a two-digit day in 01..31. -/
def matchesDateField (s : List Char) : Bool :=
  match s with
  | [y1, y2, y3, y4, c5, m1, m2, c8, d1, d2] =>
      isDigitChar y1 && isDigitChar y2 && isDigitChar y3 && isDigitChar y4 &&
      c5.toNat == 45 && c8.toNat == 45 &&
      isDigitChar m1 && isDigitChar m2 && isDigitChar d1 && isDigitChar d2 &&
      (let mo := 10 * digitVal m1 + digitVal m2
       let d := 10 * digitVal d1 + digitVal d2
       decide (1 ≤ mo) && decide (mo ≤ 12) && decide (1 ≤ d) && decide (d ≤ 31))
  | _ => false

/-- The field regex of `Receipt.purchaseTime`: `^(?:[01]\d|2[0-3]):[0-5]\d$`. -/
def matchesTimeField (s : List Char) : Bool :=
  match s with
  | [h1, h2, c3, m1, m2] =>
      isDigitChar h1 && isDigitChar h2 && c3.toNat == 58 &&
      isDigitChar m1 && isDigitChar m2 &&
      decide (10 * digitVal h1 + digitVal h2 ≤ 23) &&
      decide (10 * digitVal m1 + digitVal m2 ≤ 59)
  | _ => false

/-! ## CPython `strptime`

`datetime.strptime` compiles a format string to one regex
(`%Y` = `\d{4}`, `%m` = `1[0-2]|0[1-9]|[1-9]`, `%d` = `3[01]|[12]\d|0[1-9]|[1-9]`,
`%H` = `2[0-3]|[0-1]\d|\d`, `%M` = `[0-5]\d|\d`), requires the match to consume
the whole string ("unconverted data remains" otherwise), and then builds a
`datetime`, which raises for calendar-invalid days and for year 0.  In each
format used by the source, every two-digit numeric token is followed by a
literal (or the end), never by a digit, so the regex's greedy two-digit
alternative with backtracking is equivalent to: take two digits when the
two-digit alternative matches, else one. -/

/-- Read a literal character. -/
def expectChar (c : Char) : List Char → Option (List Char)
  | x :: r => if x == c then some r else none
  | [] => none

/-- The `%Y` token: exactly four digits. -/
def parseYear4 : List Char → Option (Nat × List Char)
  | a :: b :: c :: d :: rest =>
      if isDigitChar a && isDigitChar b && isDigitChar c && isDigitChar d then
        some (natOfDigits [a, b, c, d], rest)
      else none
  | _ => none

/-- Two leading characters match the two-digit alternative `1[0-2]|0[1-9]` of `%m`. -/
def month2Ok (a b : Char) : Bool :=
  (a.toNat == 49 && isDigitChar b && digitVal b ≤ 2) ||
  (a.toNat == 48 && isDigitChar b && 1 ≤ digitVal b)

/-- The `%m` token: `1[0-2]|0[1-9]|[1-9]`. -/
def parseMonthTok : List Char → Option (Nat × List Char)
  | a :: b :: rest =>
      if month2Ok a b then some (10 * digitVal a + digitVal b, rest)
      else if isDigitChar a && 1 ≤ digitVal a then some (digitVal a, b :: rest)
      else none
  | [a] => if isDigitChar a && 1 ≤ digitVal a then some (digitVal a, []) else none
  | [] => none

/-- Two leading characters match the two-digit alternatives `3[01]|[12]\d|0[1-9]` of `%d`. -/
def day2Ok (a b : Char) : Bool :=
  (a.toNat == 51 && isDigitChar b && digitVal b ≤ 1) ||
  ((a.toNat == 49 || a.toNat == 50) && isDigitChar b) ||
  (a.toNat == 48 && isDigitChar b && 1 ≤ digitVal b)

/-- The `%d` token: `3[01]|[12]\d|0[1-9]|[1-9]`. -/
def parseDayTok : List Char → Option (Nat × List Char)
  | a :: b :: rest =>
      if day2Ok a b then some (10 * digitVal a + digitVal b, rest)
      else if isDigitChar a && 1 ≤ digitVal a then some (digitVal a, b :: rest)
      else none
  | [a] => if isDigitChar a && 1 ≤ digitVal a then some (digitVal a, []) else none
  | [] => none

/-- Two leading characters match the two-digit alternatives `2[0-3]|[0-1]\d` of `%H`. -/
def hour2Ok (a b : Char) : Bool :=
  (a.toNat == 50 && isDigitChar b && digitVal b ≤ 3) ||
  ((a.toNat == 48 || a.toNat == 49) && isDigitChar b)

/-- The `%H` token: `2[0-3]|[0-1]\d|\d`. -/
def parseHourTok : List Char → Option (Nat × List Char)
  | a :: b :: rest =>
      if hour2Ok a b then some (10 * digitVal a + digitVal b, rest)
      else if isDigitChar a then some (digitVal a, b :: rest)
      else none
  | [a] => if isDigitChar a then some (digitVal a, []) else none
  | [] => none

/-- The `%M` token: `[0-5]\d|\d`. -/
def parseMinTok : List Char → Option (Nat × List Char)
  | a :: b :: rest =>
      if isDigitChar a && digitVal a ≤ 5 && isDigitChar b then
        some (10 * digitVal a + digitVal b, rest)
      else if isDigitChar a then some (digitVal a, b :: rest)
      else none
  | [a] => if isDigitChar a then some (digitVal a, []) else none
  | [] => none

/-- Gregorian leap year, as used by `datetime`. -/
def isLeapYear (y : Nat) : Bool :=
  y % 4 == 0 && (!(y % 100 == 0) || y % 400 == 0)

/-- Days in a month, as used by `datetime`. -/
def daysInMonth (y mo : Nat) : Nat :=
  if mo == 2 then (if isLeapYear y then 29 else 28)
  else if mo == 4 || mo == 6 || mo == 9 || mo == 11 then 30
  else 31

/-- The checks `datetime(year, month, day, ...)` performs beyond the regex:
`MINYEAR <= year` and a calendar-valid day. -/
def datetimeOk (y mo d : Nat) : Bool :=
  1 ≤ y && d ≤ daysInMonth y mo

/-- `datetime.strptime(s, "%Y-%m-%d %H:%M")`: the combined date-time parse the
`Receipt` model validator performs, returning `(year, month, day, hour, minute)`. -/
def strptimeDateTime (s : List Char) : Option (Nat × Nat × Nat × Nat × Nat) :=
  match parseYear4 s with
  | none => none
  | some (y, r1) =>
    match expectChar '-' r1 with
    | none => none
    | some r2 =>
      match parseMonthTok r2 with
      | none => none
      | some (mo, r3) =>
        match expectChar '-' r3 with
        | none => none
        | some r4 =>
          match parseDayTok r4 with
          | none => none
          | some (d, r5) =>
            match expectChar ' ' r5 with
            | none => none
            | some r6 =>
              match parseHourTok r6 with
              | none => none
              | some (h, r7) =>
                match expectChar ':' r7 with
                | none => none
                | some r8 =>
                  match parseMinTok r8 with
                  | none => none
                  | some (mi, r9) =>
                    if r9 = [] then
                      if datetimeOk y mo d then some (y, mo, d, h, mi) else none
                    else none

/-- `datetime.strptime(s, "%Y-%m-%d")`, used by the scorer's rule 6. -/
def strptimeDate (s : List Char) : Option (Nat × Nat × Nat) :=
  match parseYear4 s with
  | none => none
  | some (y, r1) =>
    match expectChar '-' r1 with
    | none => none
    | some r2 =>
      match parseMonthTok r2 with
      | none => none
      | some (mo, r3) =>
        match expectChar '-' r3 with
        | none => none
        | some r4 =>
          match parseDayTok r4 with
          | none => none
          | some (d, r5) =>
            if r5 = [] then
              if datetimeOk y mo d then some (y, mo, d) else none
            else none

/-- `datetime.strptime(s, "%H:%M")`, used by the scorer's rule 7. -/
def strptimeTime (s : List Char) : Option (Nat × Nat) :=
  match parseHourTok s with
  | none => none
  | some (h, r1) =>
    match expectChar ':' r1 with
    | none => none
    | some r2 =>
      match parseMinTok r2 with
      | none => none
      | some (mi, r3) => if r3 = [] then some (h, mi) else none

/-! ## Data model (`models.py`) -/

/-- The validated `Item` model: both fields are stored already stripped. -/
structure Item where
  shortDescription : List Char
  price : List Char
deriving DecidableEq

/-- The validated `Receipt` model. -/
structure Receipt where
  retailer : List Char
  purchaseDate : List Char
  purchaseTime : List Char
  items : List Item
  total : List Char
deriving DecidableEq

/-- A JSON-like input document: the universe of request bodies modelled here
(strings, integers, null, arrays, objects). -/
inductive JVal where
  | jstr (s : List Char)
  | jnum (n : Int)
  | jnull
  | jarr (elems : List JVal)
  | jobj (fields : List (String × JVal))

/-- Field access on a decoded JSON object (`data.get(key)`). -/
def jfieldGet (fs : List (String × JVal)) (k : String) : Option JVal :=
  List.lookup k fs

def retailerKey : String := "retailer"
def dateKey : String := "purchaseDate"
def timeKey : String := "purchaseTime"
def itemsKey : String := "items"
def totalKey : String := "total"

/-- The keys `Receipt` declares; any other key is rejected (`extra="forbid"`). -/
def receiptKeys : List String := [retailerKey, dateKey, timeKey, itemsKey, totalKey]

def shortDescriptionKey : String := "shortDescription"
def priceKey : String := "price"

/-- The keys `Item` declares. -/
def itemKeys : List String := [shortDescriptionKey, priceKey]

/-- `extra="forbid"`: every present key must be a declared field. -/
def keysAllowed (allowed : List String) (fs : List (String × JVal)) : Bool :=
  fs.all (fun kv => allowed.contains kv.1)

/-- Models the `if price:`-guarded `Decimal(price) >= 0` check of the two
`mode='before'` validators: a falsy value (absent, `None`, `0`, empty string,
empty collection) skips the check; a truthy string must parse as a nonnegative
decimal; a truthy non-string raises inside the guarded block and is rejected
(`Decimal` of a list or dict raises `TypeError`, which the source catches and
turns into a rejection; `Decimal` of a negative int fails the `>= 0` test). -/
def truthyDecimalOk : Option JVal → Bool
  | some (JVal.jstr s) => s.isEmpty || decimalNonnegOk s
  | some (JVal.jnum n) => decide (0 ≤ n)
  | some JVal.jnull => true
  | some (JVal.jarr l) => l.isEmpty
  | some (JVal.jobj l) => l.isEmpty
  | none => true

/-- The combined `strptime(f"{date} {time}", "%Y-%m-%d %H:%M")` check of
`Receipt.validate_receipt`.  When either value is not a string, the f-string
interpolates its repr (for a missing key, the default `''`): such a rendering
can never complete the combined parse — a non-string repr is `None`, `[...]`,
`{...}` or an optionally-signed digit run, and the parse demands
`dddd-m-d h:m` with a dash after the fourth digit — so those cases are
rejected uniformly. -/
def combinedDatetimeOk (fs : List (String × JVal)) : Bool :=
  match jfieldGet fs dateKey, jfieldGet fs timeKey with
  | some (JVal.jstr d), some (JVal.jstr t) => (strptimeDateTime (d ++ ' ' :: t)).isSome
  | _, _ => false

/-- The `mode='before'` validator of `Receipt` (`validate_receipt`). -/
def receiptBeforeOk (fs : List (String × JVal)) : Bool :=
  combinedDatetimeOk fs && truthyDecimalOk (jfieldGet fs totalKey)

/-- Validation of one declared string field: the value must be a JSON string
(`null`, numbers, arrays, objects are type errors), is stripped
(`str_strip_whitespace=True`) and the stripped value must match the field's
regex. -/
def asStrField (pat : List Char → Bool) : Option JVal → Option (List Char)
  | some (JVal.jstr s) => if pat (pyStrip s) then some (pyStrip s) else none
  | _ => none

/-- Pydantic validation of one element of `items` (the `Item` model). -/
def decodeItem : JVal → Option Item
  | JVal.jobj fs =>
      if truthyDecimalOk (jfieldGet fs priceKey) then
        if keysAllowed itemKeys fs then
          match asStrField matchesDesc (jfieldGet fs shortDescriptionKey),
                asStrField matchesPrice (jfieldGet fs priceKey) with
          | some d, some p => some ⟨d, p⟩
          | _, _ => none
        else none
      else none
  | _ => none

/-- Elementwise validation of the `items` array. -/
def decodeItems : List JVal → Option (List Item)
  | [] => some []
  | j :: js =>
      match decodeItem j, decodeItems js with
      | some it, some its => some (it :: its)
      | _, _ => none

/-- The `items` field: must be a JSON array of valid `Item`s. -/
def decodeItemsField : Option JVal → Option (List Item)
  | some (JVal.jarr js) => decodeItems js
  | _ => none

/-- Field-level validation of `Receipt` (field types, stripping, patterns,
`min_length=1` on `items`). -/
def decodeReceiptFields (fs : List (String × JVal)) : Option Receipt :=
  (asStrField matchesRetailer (jfieldGet fs retailerKey)).bind fun r =>
  (asStrField matchesDateField (jfieldGet fs dateKey)).bind fun d =>
  (asStrField matchesTimeField (jfieldGet fs timeKey)).bind fun t =>
  (decodeItemsField (jfieldGet fs itemsKey)).bind fun its =>
  (asStrField matchesPrice (jfieldGet fs totalKey)).bind fun tot =>
  if 1 ≤ its.length then some ⟨r, d, t, its, tot⟩ else none

/-- Full pydantic validation of a request document against `Receipt`: the
document must be a JSON object, the `mode='before'` validator must pass, no
extra keys, and every field must validate.  `none` is the uniform
422 "Invalid receipt format" rejection. -/
def decodeReceipt : JVal → Option Receipt
  | JVal.jobj fs =>
      if receiptBeforeOk fs then
        if keysAllowed receiptKeys fs then decodeReceiptFields fs else none
      else none
  | _ => none

/-- The `get_validated_receipt` dependency of `main.py`: reject a parsed
receipt whose `retailer` or item `shortDescription` differs from its own
strip. -/
def get_validated_receipt (r : Receipt) : Option Receipt :=
  if pyStrip r.retailer = r.retailer then
    if r.items.all (fun it => pyStrip it.shortDescription == it.shortDescription) then
      some r
    else none
  else none

/-- The whole acceptance pipeline of `POST /receipts/process`: pydantic
validation followed by the `get_validated_receipt` dependency. -/
def processReceiptDoc (j : JVal) : Option Receipt :=
  (decodeReceipt j).bind get_validated_receipt

/-! ## Python floats (IEEE 754 binary64)

The scorer computes with Python floats: `float(receipt.total)`,
`float(item.price) * 0.2`, `x.is_integer()`, `x % 0.25 == 0`, `math.ceil`.
A nonnegative finite double is an exact value `n * 2^e`; conversions and
arithmetic round to nearest, ties to even, and overflow to `inf`
(`float` of an over-large decimal string returns `inf`; `math.ceil` of `inf`
raises `OverflowError`, of `nan` raises `ValueError`).  Only nonnegative
values arise in this program. -/

/-- A Python float as the scorer can produce it: a nonnegative finite double
with exact value `n * 2^e`, or `inf`, or `nan`. -/
inductive PyFloat where
  | fin (n : Nat) (e : Int)
  | inf
  | nan
deriving DecidableEq

/-- Fuel-driven bit length: `bitLenAux f n` is the bit length of `n` provided
`f` bounds the number of halvings, which `f = n` always does. -/
def bitLenAux : Nat → Nat → Nat
  | 0, _ => 0
  | f + 1, n => if n = 0 then 0 else bitLenAux f (n / 2) + 1

/-- Bit length of a natural number (`0` for `0`). -/
def bitLen (n : Nat) : Nat := bitLenAux n n

/-- Whether `2^c ≤ num/den` (for positive `num`, `den`). -/
def pow2LE (num den : Nat) (c : Int) : Bool :=
  if 0 ≤ c then decide (den * 2 ^ c.toNat ≤ num) else decide (den ≤ num * 2 ^ (-c).toNat)

/-- `⌊log₂ (num/den)⌋` for positive `num`, `den`, via bit lengths. -/
def floorLogFrac (num den : Nat) : Int :=
  let cand : Int := (bitLen num : Int) - (bitLen den : Int)
  if pow2LE num den cand then cand else cand - 1

/-- Round `num/den` to the nearest integer, ties to even. -/
def roundHalfEvenFrac (num den : Nat) : Nat :=
  let q := num / den
  let r := num % den
  if 2 * r < den then q
  else if den < 2 * r then q + 1
  else if q % 2 = 0 then q else q + 1

/-- Correctly round the exact nonnegative rational `num/den` to a binary64
value: scale into the 53-bit window (clamped at the subnormal limit `2^-1074`),
round half-to-even, renormalise a carry, and overflow to `inf` when the rounded
value reaches `2^1024` (i.e. exceeds the largest finite double). -/
def roundToDouble (num den : Nat) : PyFloat :=
  if num = 0 then PyFloat.fin 0 0
  else
    let e : Int := max (floorLogFrac num den - 52) (-1074)
    let n :=
      if 0 ≤ e then roundHalfEvenFrac num (den * 2 ^ e.toNat)
      else roundHalfEvenFrac (num * 2 ^ (-e).toNat) den
    let p := if n = 2 ^ 53 then (2 ^ 52, e + 1) else (n, e)
    if 972 ≤ p.2 then PyFloat.inf else PyFloat.fin p.1 p.2

/-- The double denoted by the Python literal `0.2`. -/
def float02 : PyFloat := roundToDouble 1 5

/-- IEEE multiplication of two Python floats (`inf * 0` is `nan`). -/
def fmul : PyFloat → PyFloat → PyFloat
  | PyFloat.fin n1 e1, PyFloat.fin n2 e2 =>
      if n1 * n2 = 0 then PyFloat.fin 0 0
      else
        let e := e1 + e2
        if 0 ≤ e then roundToDouble (n1 * n2 * 2 ^ e.toNat) 1
        else roundToDouble (n1 * n2) (2 ^ (-e).toNat)
  | PyFloat.inf, PyFloat.fin n _ => if n = 0 then PyFloat.nan else PyFloat.inf
  | PyFloat.fin n _, PyFloat.inf => if n = 0 then PyFloat.nan else PyFloat.inf
  | PyFloat.inf, PyFloat.inf => PyFloat.inf
  | PyFloat.nan, _ => PyFloat.nan
  | _, PyFloat.nan => PyFloat.nan

/-- Python `float.is_integer` (false for `inf` and `nan`). -/
def floatIsInteger : PyFloat → Bool
  | PyFloat.fin n e => 0 ≤ e || n % 2 ^ (-e).toNat == 0
  | _ => false

/-- Python `x % 0.25 == 0`: `fmod` is exact on doubles, so a finite `x`
qualifies exactly when it is an integer multiple of `2^-2`; `inf % 0.25` and
`nan % 0.25` are `nan`, which compares unequal to `0`. -/
def fmodQuarterIsZero : PyFloat → Bool
  | PyFloat.fin n e => 0 ≤ e + 2 || n % 2 ^ (-(e + 2)).toNat == 0
  | _ => false

/-- Python `math.ceil`: exact on a finite double; raises (`none`) on `inf`
(`OverflowError`) and `nan` (`ValueError`). -/
def mathCeil : PyFloat → Option Int
  | PyFloat.fin n e =>
      if 0 ≤ e then some ((n * 2 ^ e.toNat : Nat) : Int)
      else some (((n + 2 ^ (-e).toNat - 1) / 2 ^ (-e).toNat : Nat) : Int)
  | _ => none

/-- Python `float(s)` on a string of the validated price shape `\d+\.\d{2}`:
the correctly rounded double of its exact decimal value.  (Restriction of the
embedding: `float` accepts more literal shapes, but the scorer only applies it
to pattern-validated `total` and `price` strings.) -/
def pyFloatOfPrice (s : List Char) : Option PyFloat :=
  (centsOfPrice s).map (fun m => roundToDouble m 100)

/-! ## The scorer (`receipt_processor.py`) -/

/-- Rule 1: one point per alphanumeric character of the retailer name. -/
def retailerPoints (r : List Char) : Int :=
  ((r.filter pyIsAlnum).length : Int)

/-- Rule 2: 50 points if `float(total).is_integer()`. -/
def totalRoundPoints (tf : PyFloat) : Int :=
  if floatIsInteger tf then 50 else 0

/-- Rule 3: 25 points if `float(total) % 0.25 == 0`. -/
def totalQuarterPoints (tf : PyFloat) : Int :=
  if fmodQuarterIsZero tf then 25 else 0

/-- Rule 4: `(len(items) // 2) * 5`. -/
def pairPoints (items : List Item) : Int :=
  ((items.length / 2) * 5 : Nat)

/-- Rule 5 for one item: if the stripped description length is a multiple of 3
(including 0), `math.ceil(float(price) * 0.2)`; otherwise no points and no
float conversion is attempted. -/
def itemDescPoints (it : Item) : Option Int :=
  if (pyStrip it.shortDescription).length % 3 = 0 then
    (pyFloatOfPrice it.price).bind (fun pf => mathCeil (fmul pf float02))
  else some 0

/-- Rule 5 summed over the items, in order. -/
def itemsDescPoints : List Item → Option Int
  | [] => some 0
  | it :: rest =>
      match itemDescPoints it, itemsDescPoints rest with
      | some a, some b => some (a + b)
      | _, _ => none

/-- Rule 6: 6 points when the `strptime`-parsed day of month is odd. -/
def dayPoints (d : Nat) : Int := if d % 2 = 1 then 6 else 0

/-- Rule 6 from the date string, failing if `strptime` does. -/
def rule6Points (s : List Char) : Option Int :=
  (strptimeDate s).map (fun ymd => dayPoints ymd.2.2)

/-- Rule 7: 10 points when `14 <= hour < 16`. -/
def hourPoints (h : Nat) : Int := if 14 ≤ h ∧ h < 16 then 10 else 0

/-- Rule 7 from the time string, failing if `strptime` does. -/
def rule7Points (s : List Char) : Option Int :=
  (strptimeTime s).map (fun hm => hourPoints hm.1)

/-- `ReceiptProcessor.calculate_points`: the sum of the seven rules; `none`
models an exception escaping from the rule computations (a failed parse or a
`math.ceil` on a non-finite float), in source order. -/
def calculate_points (r : Receipt) : Option Int := do
  let tf ← pyFloatOfPrice r.total
  let descPts ← itemsDescPoints r.items
  let dayPts ← rule6Points r.purchaseDate
  let timePts ← rule7Points r.purchaseTime
  return retailerPoints r.retailer + totalRoundPoints tf + totalQuarterPoints tf +
    pairPoints r.items + descPts + dayPts + timePts

/-! ## The store (`main.py`, a `cachetools.TTLCache`)

An entry carries its expiry instant `now + ttl`; a lookup at time `t` sees the
entry only while `t < expiry`.  A fresh insert is placed in front (capacity
eviction under `maxsize` pressure removes least-recently-used *other* entries,
never the entry being inserted, so it is not modelled here). -/

/-- The stored record (`ReceiptData`): the receipt with its computed points. -/
structure ReceiptData where
  receipt : Receipt
  points : Int
deriving DecidableEq

/-- One cache entry: key, expiry instant, record. -/
structure StoreEntry where
  key : String
  expiry : Nat
  data : ReceiptData
deriving DecidableEq

/-- The in-memory receipts cache. -/
abbrev Store := List StoreEntry

/-- `receipts_cache[receipt_id] = ReceiptData(...)` at time `now` with
time-to-live `ttl`. -/
def insertStore (st : Store) (id : String) (rd : ReceiptData) (now ttl : Nat) : Store :=
  ⟨id, now + ttl, rd⟩ :: st

/-- `receipts_cache.get(id)` at time `now`: the live entry for `id`, if any. -/
def lookupStore (st : Store) (id : String) (now : Nat) : Option ReceiptData :=
  match st.find? (fun en => en.key == id) with
  | some en => if now < en.expiry then some en.data else none
  | none => none

/-- `process_receipt`: score the validated receipt, store the record under the
generated id, and answer the id.  `none` models the handler's catch-all 422
when scoring raises. -/
def process_receipt (st : Store) (id : String) (r : Receipt) (now ttl : Nat) :
    Option (Store × String) :=
  (calculate_points r).map (fun p => (insertStore st id ⟨r, p⟩ now ttl, id))

/-- `get_points`: look the id up and answer the stored points, `none` being
the 404 outcome. -/
def get_points (st : Store) (id : String) (now : Nat) : Option Int :=
  (lookupStore st id now).map (fun rd => rd.points)

/-! ## Exact-decimal reference values (what the spec mandates) -/

/-- Exact value of `ceil(price * 0.2)` on the decimal value of a price given
in cents: `⌈cents / 500⌉`.  This is the spec's decimal-exact description
bonus, to be compared with the scorer's float computation. -/
def exactFifthCeil (cents : Nat) : Nat :=
  (cents + 499) / 500

/-! ## Concrete fixtures -/

/-- The spec's scenario receipt, as validated:
`{retailer: "Target", purchaseDate: "2022-01-01", purchaseTime: "13:01",
items: [{shortDescription: "Mountain Dew", price: "6.49"}], total: "6.49"}`. -/
def targetReceipt : Receipt :=
  ⟨"Target".toList, "2022-01-01".toList, "13:01".toList,
   [⟨"Mountain Dew".toList, "6.49".toList⟩], "6.49".toList⟩

/-- The spec's scenario receipt as a request document. -/
def targetFields : List (String × JVal) :=
  [(retailerKey, JVal.jstr ("Target".toList)),
   (dateKey, JVal.jstr ("2022-01-01".toList)),
   (timeKey, JVal.jstr ("13:01".toList)),
   (itemsKey, JVal.jarr [JVal.jobj
      [(shortDescriptionKey, JVal.jstr ("Mountain Dew".toList)),
       (priceKey, JVal.jstr ("6.49".toList))]]),
   (totalKey, JVal.jstr ("6.49".toList))]

/-- A validator-approved receipt whose total's exact decimal value has cents
`.50`, but whose binary64 image is the integer `2^53`. -/
def halfCentBoundaryReceipt : Receipt :=
  ⟨"Target".toList, "2022-01-02".toList, "13:01".toList,
   [⟨"Milk".toList, "1.00".toList⟩], "9007199254740992.50".toList⟩

/-- A validator-approved receipt whose single item has a price that is an
exact multiple of 5 dollars (`9007199254740995.00`), with a description of
trimmed length 3. -/
def fifthBoundaryReceipt : Receipt :=
  ⟨"Target".toList, "2022-01-02".toList, "13:01".toList,
   [⟨"abc".toList, "9007199254740995.00".toList⟩], "1.00".toList⟩

/-- A price string whose decimal value (`10^329` dollars) exceeds the largest
finite double, so `float()` of it is `inf`. -/
def hugePriceStr : List Char :=
  '1' :: (List.replicate 329 '0' ++ ".00".toList)

/-- A receipt the validator approves whose item price overflows `float`. -/
def hugePriceReceipt : Receipt :=
  ⟨"Target".toList, "2022-01-02".toList, "13:01".toList,
   [⟨"abc".toList, hugePriceStr⟩], "1.00".toList⟩

/-- The request document for `hugePriceReceipt`. -/
def hugePriceFields : List (String × JVal) :=
  [(retailerKey, JVal.jstr ("Target".toList)),
   (dateKey, JVal.jstr ("2022-01-02".toList)),
   (timeKey, JVal.jstr ("13:01".toList)),
   (itemsKey, JVal.jarr [JVal.jobj
      [(shortDescriptionKey, JVal.jstr ("abc".toList)),
       (priceKey, JVal.jstr hugePriceStr)]]),
   (totalKey, JVal.jstr ("1.00".toList))]

/-- A request document whose `retailer` carries surrounding whitespace. -/
def paddedRetailerFields : List (String × JVal) :=
  [(retailerKey, JVal.jstr (" Target ".toList)),
   (dateKey, JVal.jstr ("2022-01-01".toList)),
   (timeKey, JVal.jstr ("13:01".toList)),
   (itemsKey, JVal.jarr [JVal.jobj
      [(shortDescriptionKey, JVal.jstr ("Mountain Dew".toList)),
       (priceKey, JVal.jstr ("6.49".toList))]]),
   (totalKey, JVal.jstr ("6.49".toList))]

/-- A request document whose `purchaseDate` is the calendar-invalid
`2022-02-30` (each field matches its own regex). -/
def feb30Fields : List (String × JVal) :=
  [(retailerKey, JVal.jstr ("Target".toList)),
   (dateKey, JVal.jstr ("2022-02-30".toList)),
   (timeKey, JVal.jstr ("13:01".toList)),
   (itemsKey, JVal.jarr [JVal.jobj
      [(shortDescriptionKey, JVal.jstr ("Mountain Dew".toList)),
       (priceKey, JVal.jstr ("6.49".toList))]]),
   (totalKey, JVal.jstr ("6.49".toList))]

/-! ## Additional fixtures for the claims -/

/-- Request document for `halfCentBoundaryReceipt`. -/
def halfCentFields : List (String × JVal) :=
  [(retailerKey, JVal.jstr ("Target".toList)),
   (dateKey, JVal.jstr ("2022-01-02".toList)),
   (timeKey, JVal.jstr ("13:01".toList)),
   (itemsKey, JVal.jarr [JVal.jobj
      [(shortDescriptionKey, JVal.jstr ("Milk".toList)),
       (priceKey, JVal.jstr ("1.00".toList))]]),
   (totalKey, JVal.jstr ("9007199254740992.50".toList))]

/-- Request document for `fifthBoundaryReceipt`. -/
def fifthFields : List (String × JVal) :=
  [(retailerKey, JVal.jstr ("Target".toList)),
   (dateKey, JVal.jstr ("2022-01-02".toList)),
   (timeKey, JVal.jstr ("13:01".toList)),
   (itemsKey, JVal.jarr [JVal.jobj
      [(shortDescriptionKey, JVal.jstr ("abc".toList)),
       (priceKey, JVal.jstr ("9007199254740995.00".toList))]]),
   (totalKey, JVal.jstr ("1.00".toList))]

/-- An undeclared key. -/
def fooKey : String := "foo"

/-- The scenario document carrying one extra, undeclared field. -/
def extraKeyFields : List (String × JVal) :=
  (fooKey, JVal.jnull) :: targetFields

/-- The scenario receipt's single item. -/
def mountainDewItem : Item :=
  ⟨"Mountain Dew".toList, "6.49".toList⟩

/-- A demonstration receipt id. -/
def demoId : String := "id-1"

/-! ## Properties of `pyStrip` -/

/-- The head surviving a `dropWhile` fails the predicate. -/
theorem head_dropWhile_not {p : Char → Bool} :
    ∀ {l : List Char} {c : Char}, (l.dropWhile p).head? = some c → p c = false := by
  intro l
  induction l with
  | nil => intro c h; simp at h
  | cons a t ih =>
      intro c h
      rw [List.dropWhile_cons] at h
      by_cases ha : p a
      · rw [if_pos ha] at h
        exact ih h
      · rw [if_neg ha] at h
        simp at h
        subst h
        simpa using ha

/-- `dropWhile` is the identity when the head already fails the predicate. -/
theorem dropWhile_eq_self_of_head {p : Char → Bool} {l : List Char}
    (h : ∀ c, l.head? = some c → p c = false) : l.dropWhile p = l := by
  cases l with
  | nil => rfl
  | cons a t =>
      rw [List.dropWhile_cons, if_neg]
      simp [h a rfl]

/-- `dropWhile` keeps the last element of a list it does not empty. -/
theorem getLast?_dropWhile {p : Char → Bool} :
    ∀ {l : List Char}, l.dropWhile p ≠ [] → (l.dropWhile p).getLast? = l.getLast? := by
  intro l
  induction l with
  | nil => intro h; rfl
  | cons a t ih =>
      intro h
      rw [List.dropWhile_cons] at h ⊢
      by_cases ha : p a
      · rw [if_pos ha] at h ⊢
        have ht : t ≠ [] := by
          intro he
          rw [he] at h
          exact h rfl
        obtain ⟨b, t', rfl⟩ := List.exists_cons_of_ne_nil ht
        rw [ih h, List.getLast?_cons_cons]
      · rw [if_neg ha]

/-- The head of a nonempty left-trim result is not whitespace. -/
theorem pyLTrim_head {l : List Char} {c : Char} (h : (pyLTrim l).head? = some c) :
    pyIsSpace c = false :=
  head_dropWhile_not h

/-- A string whose two ends are not whitespace strips to itself. -/
theorem pyStrip_eq_self {x : List Char}
    (h1 : ∀ c, x.head? = some c → pyIsSpace c = false)
    (h2 : ∀ c, x.getLast? = some c → pyIsSpace c = false) : pyStrip x = x := by
  have e1 : pyLTrim x = x := dropWhile_eq_self_of_head h1
  show (pyLTrim (pyLTrim x).reverse).reverse = x
  rw [e1]
  have e2 : pyLTrim x.reverse = x.reverse :=
    dropWhile_eq_self_of_head (fun c hc => h2 c (by rwa [List.head?_reverse] at hc))
  rw [e2, List.reverse_reverse]

/-- Stripping is idempotent: a stripped string strips to itself. -/
theorem pyStrip_idem (s : List Char) : pyStrip (pyStrip s) = pyStrip s := by
  by_cases hy : pyLTrim (pyLTrim s).reverse = []
  · have hz : pyStrip s = [] := by
      show (pyLTrim (pyLTrim s).reverse).reverse = []
      rw [hy]
      rfl
    rw [hz]
    rfl
  · apply pyStrip_eq_self
    · intro c hc
      have hc' : (pyLTrim (pyLTrim s).reverse).reverse.head? = some c := hc
      rw [List.head?_reverse] at hc'
      have hg : (pyLTrim (pyLTrim s).reverse).getLast? = (pyLTrim s).reverse.getLast? :=
        getLast?_dropWhile hy
      rw [hg, List.getLast?_reverse] at hc'
      exact pyLTrim_head hc'
    · intro c hc
      have hc' : (pyLTrim (pyLTrim s).reverse).reverse.getLast? = some c := hc
      rw [List.getLast?_reverse] at hc'
      exact pyLTrim_head hc'

/-! ## Bounds delivered by the `strptime` tokens -/

/-- An ASCII digit has value at most 9. -/
theorem digitVal_le_nine {c : Char} (h : isDigitChar c = true) : digitVal c ≤ 9 := by
  simp [isDigitChar] at h
  simp [digitVal]
  omega

/-- The `%H` token yields an hour at most 23. -/
theorem parseHourTok_le {s r : List Char} {h : Nat} (hp : parseHourTok s = some (h, r)) :
    h ≤ 23 := by
  match s with
  | [] => simp [parseHourTok] at hp
  | [a] =>
      simp only [parseHourTok] at hp
      split at hp
      · simp at hp
        have := digitVal_le_nine (by assumption)
        omega
      · simp at hp
  | a :: b :: rest =>
      simp only [parseHourTok] at hp
      split at hp
      · simp at hp
        rename_i h2
        simp [hour2Ok, isDigitChar, digitVal] at h2 hp
        rcases h2 with h2 | h2 <;> omega
      · split at hp
        · simp at hp
          have := digitVal_le_nine (by assumption)
          omega
        · simp at hp

/-- The `%M` token yields a minute at most 59. -/
theorem parseMinTok_le {s r : List Char} {m : Nat} (hp : parseMinTok s = some (m, r)) :
    m ≤ 59 := by
  match s with
  | [] => simp [parseMinTok] at hp
  | [a] =>
      simp only [parseMinTok] at hp
      split at hp
      · simp at hp
        have := digitVal_le_nine (by assumption)
        omega
      · simp at hp
  | a :: b :: rest =>
      simp only [parseMinTok] at hp
      split at hp
      · simp at hp
        rename_i h2
        simp [isDigitChar, digitVal] at h2 hp
        omega
      · split at hp
        · simp at hp
          have := digitVal_le_nine (by assumption)
          omega
        · simp at hp

/-- The minute component accepted by the scorer's `%H:%M` parse is at most 59. -/
theorem strptimeTime_minute_le {s : List Char} {h m : Nat}
    (hp : strptimeTime s = some (h, m)) : m ≤ 59 := by
  unfold strptimeTime at hp
  cases h1 : parseHourTok s with
  | none => rw [h1] at hp; simp at hp
  | some x =>
    obtain ⟨hv, r1⟩ := x
    rw [h1] at hp
    dsimp only at hp
    cases h2 : expectChar ':' r1 with
    | none => rw [h2] at hp; simp at hp
    | some r2 =>
      rw [h2] at hp
      dsimp only at hp
      cases h3 : parseMinTok r2 with
      | none => rw [h3] at hp; simp at hp
      | some x2 =>
        obtain ⟨mv, r3⟩ := x2
        rw [h3] at hp
        dsimp only at hp
        split at hp
        · simp at hp
          obtain ⟨rfl, rfl⟩ := hp
          exact parseMinTok_le h3
        · simp at hp

/-! ## Inverting the validator -/

/-- Inverting the validation of one declared string field. -/
theorem asStrField_inv {pat : List Char → Bool} {o : Option JVal} {t : List Char}
    (h : asStrField pat o = some t) :
    ∃ s, o = some (JVal.jstr s) ∧ t = pyStrip s ∧ pat (pyStrip s) = true := by
  match o with
  | none => simp [asStrField] at h
  | some (JVal.jstr s) =>
      refine ⟨s, rfl, ?_⟩
      simp only [asStrField] at h
      split at h
      · rename_i hpat
        simp at h
        exact ⟨h.symm, hpat⟩
      · simp at h
  | some (JVal.jnum n) => simp [asStrField] at h
  | some JVal.jnull => simp [asStrField] at h
  | some (JVal.jarr l) => simp [asStrField] at h
  | some (JVal.jobj l) => simp [asStrField] at h

/-- Inverting the validation of the `items` field. -/
theorem decodeItemsField_inv {o : Option JVal} {its : List Item}
    (h : decodeItemsField o = some its) :
    ∃ js, o = some (JVal.jarr js) ∧ decodeItems js = some its := by
  match o with
  | none => simp [decodeItemsField] at h
  | some (JVal.jstr s) => simp [decodeItemsField] at h
  | some (JVal.jnum n) => simp [decodeItemsField] at h
  | some JVal.jnull => simp [decodeItemsField] at h
  | some (JVal.jarr js) => exact ⟨js, rfl, h⟩
  | some (JVal.jobj l) => simp [decodeItemsField] at h

/-- Inverting the field-level validation of `Receipt`. -/
theorem decodeReceiptFields_inv {fs : List (String × JVal)} {r : Receipt}
    (h : decodeReceiptFields fs = some r) :
    asStrField matchesRetailer (jfieldGet fs retailerKey) = some r.retailer ∧
    asStrField matchesDateField (jfieldGet fs dateKey) = some r.purchaseDate ∧
    asStrField matchesTimeField (jfieldGet fs timeKey) = some r.purchaseTime ∧
    decodeItemsField (jfieldGet fs itemsKey) = some r.items ∧
    asStrField matchesPrice (jfieldGet fs totalKey) = some r.total ∧
    1 ≤ r.items.length := by
  unfold decodeReceiptFields at h
  cases h1 : asStrField matchesRetailer (jfieldGet fs retailerKey) with
  | none => rw [h1] at h; simp at h
  | some rv =>
  rw [h1] at h
  simp only [Option.some_bind] at h
  cases h2 : asStrField matchesDateField (jfieldGet fs dateKey) with
  | none => rw [h2] at h; simp at h
  | some dv =>
  rw [h2] at h
  simp only [Option.some_bind] at h
  cases h3 : asStrField matchesTimeField (jfieldGet fs timeKey) with
  | none => rw [h3] at h; simp at h
  | some tv =>
  rw [h3] at h
  simp only [Option.some_bind] at h
  cases h4 : decodeItemsField (jfieldGet fs itemsKey) with
  | none => rw [h4] at h; simp at h
  | some itsv =>
  rw [h4] at h
  simp only [Option.some_bind] at h
  cases h5 : asStrField matchesPrice (jfieldGet fs totalKey) with
  | none => rw [h5] at h; simp at h
  | some totv =>
  rw [h5] at h
  simp only [Option.some_bind] at h
  split at h
  · rename_i hlen
    simp at h
    subst h
    exact ⟨rfl, rfl, rfl, rfl, rfl, hlen⟩
  · simp at h

/-- Inverting the whole pydantic validation. -/
theorem decodeReceipt_inv {j : JVal} {r : Receipt} (h : decodeReceipt j = some r) :
    ∃ fs, j = JVal.jobj fs ∧ receiptBeforeOk fs = true ∧
      keysAllowed receiptKeys fs = true ∧ decodeReceiptFields fs = some r := by
  match j with
  | JVal.jstr s => simp [decodeReceipt] at h
  | JVal.jnum n => simp [decodeReceipt] at h
  | JVal.jnull => simp [decodeReceipt] at h
  | JVal.jarr l => simp [decodeReceipt] at h
  | JVal.jobj fs =>
      refine ⟨fs, rfl, ?_⟩
      simp only [decodeReceipt] at h
      split at h
      · rename_i hbefore
        split at h
        · rename_i hkeys
          exact ⟨hbefore, hkeys, h⟩
        · simp at h
      · simp at h

/-- A passed `mode='before'` datetime check exhibits the two string fields and
the successful combined parse. -/
theorem combinedDatetimeOk_inv {fs : List (String × JVal)}
    (h : combinedDatetimeOk fs = true) :
    ∃ d t, jfieldGet fs dateKey = some (JVal.jstr d) ∧
      jfieldGet fs timeKey = some (JVal.jstr t) ∧
      (strptimeDateTime (d ++ ' ' :: t)).isSome = true := by
  unfold combinedDatetimeOk at h
  split at h
  · rename_i d t hd ht
    exact ⟨d, t, hd, ht, h⟩
  · simp at h

/-- Every member of a validated items list comes from validating one element. -/
theorem decodeItems_mem :
    ∀ {js : List JVal} {its : List Item} {it : Item},
      decodeItems js = some its → it ∈ its → ∃ j, decodeItem j = some it := by
  intro js
  induction js with
  | nil =>
      intro its it h hm
      simp [decodeItems] at h
      subst h
      simp at hm
  | cons j rest ih =>
      intro its it h hm
      unfold decodeItems at h
      cases hj : decodeItem j with
      | none => rw [hj] at h; simp at h
      | some a =>
        rw [hj] at h
        cases hrest : decodeItems rest with
        | none => rw [hrest] at h; simp at h
        | some b =>
          rw [hrest] at h
          simp at h
          subst h
          rcases List.mem_cons.mp hm with rfl | hmem
          · exact ⟨j, hj⟩
          · exact ih hrest hmem

/-- A validated item's description is a stripped string matching the
description pattern. -/
theorem decodeItem_desc {j : JVal} {it : Item} (h : decodeItem j = some it) :
    ∃ s, it.shortDescription = pyStrip s ∧ matchesDesc (pyStrip s) = true := by
  match j with
  | JVal.jstr s => simp [decodeItem] at h
  | JVal.jnum n => simp [decodeItem] at h
  | JVal.jnull => simp [decodeItem] at h
  | JVal.jarr l => simp [decodeItem] at h
  | JVal.jobj fs =>
      simp only [decodeItem] at h
      split at h
      · split at h
        · cases hd : asStrField matchesDesc (jfieldGet fs shortDescriptionKey) with
          | none => rw [hd] at h; simp at h
          | some d =>
            rw [hd] at h
            cases hp2 : asStrField matchesPrice (jfieldGet fs priceKey) with
            | none => rw [hp2] at h; simp at h
            | some p =>
              rw [hp2] at h
              simp at h
              obtain ⟨s, _, hdesc, hpat⟩ := asStrField_inv hd
              refine ⟨s, ?_, hpat⟩
              rw [← h]
              exact hdesc
        · simp at h
      · simp at h

/-- A nonempty pattern match forces a nonempty string. -/
theorem matchesDesc_ne_nil {s : List Char} (h : matchesDesc s = true) : s ≠ [] := by
  intro he
  subst he
  simp [matchesDesc] at h

/-! ## Claims -/

/-- C1: on the spec's scenario receipt, `calculate_points` answers exactly 14,
made of 6 retailer alphanumerics, 6 odd-day points and a description bonus of
2 = ceil(6.49 * 0.2). -/
theorem claim_C1 :
    calculate_points targetReceipt = some 14 ∧
    retailerPoints ("Target".toList) = 6 ∧
    rule6Points ("2022-01-01".toList) = some 6 ∧
    itemsDescPoints targetReceipt.items = some 2 := by
  exact ⟨by decide, by decide, by decide, by decide⟩

/-- C2, failing input: the validated total `"9007199254740992.50"` has exact
cents 50, yet the scorer's float round-dollar test fires (its binary64 image is
the integer `2^53`), and the quarter test too, so the receipt scores
6 + 50 + 25 = 81 where exact-decimal evaluation would give 6 + 25 = 31. -/
theorem claim_C2_bug :
    decodeReceipt (JVal.jobj halfCentFields) = some halfCentBoundaryReceipt ∧
    centsOfPrice halfCentBoundaryReceipt.total = some 900719925474099250 ∧
    900719925474099250 % 100 = 50 ∧
    totalRoundPoints (roundToDouble 900719925474099250 100) = 50 ∧
    totalQuarterPoints (roundToDouble 900719925474099250 100) = 25 ∧
    calculate_points halfCentBoundaryReceipt = some 81 := by
  exact ⟨by decide, by decide, by decide, by decide, by decide, by decide⟩

/-- C3, failing input: for the validated price `"9007199254740995.00"` (an
exact multiple of 5 dollars) with a description of trimmed length 3, the exact
ceiling of `price * 0.2` is 1801439850948199, but the scorer's
float-multiply-then-ceil awards 1801439850948200 — one point more. -/
theorem claim_C3_bug :
    decodeReceipt (JVal.jobj fifthFields) = some fifthBoundaryReceipt ∧
    centsOfPrice ("9007199254740995.00".toList) = some 900719925474099500 ∧
    exactFifthCeil 900719925474099500 = 1801439850948199 ∧
    itemsDescPoints fifthBoundaryReceipt.items = some 1801439850948200 ∧
    calculate_points fifthBoundaryReceipt = some 1801439850948281 := by
  exact ⟨by decide, by decide, by decide, by decide, by decide⟩

/-- C4, counterexample: a document whose retailer is `" Target "` (which
differs from its own trim) is not rejected — the pipeline accepts it, silently
normalised to `"Target"`. -/
theorem claim_C4_counterexample :
    processReceiptDoc (JVal.jobj paddedRetailerFields) = some targetReceipt ∧
    pyStrip (" Target ".toList) ≠ " Target ".toList := by
  exact ⟨by decide, by decide⟩

/-- C4, amended: the whitespace re-check of `get_validated_receipt` never
rejects anything, because pydantic has already stripped every string field
(`str_strip_whitespace=True`), so the process pipeline accepts exactly what
pydantic validation accepts, with the value silently normalised. -/
theorem claim_C4_amended :
    (∀ j, processReceiptDoc j = decodeReceipt j) ∧
    processReceiptDoc (JVal.jobj paddedRetailerFields) = some targetReceipt := by
  constructor
  · intro j
    unfold processReceiptDoc
    cases hd : decodeReceipt j with
    | none => rfl
    | some r =>
      obtain ⟨fs, _, _, _, hfields⟩ := decodeReceipt_inv hd
      obtain ⟨hr, _, _, hits, _, _⟩ := decodeReceiptFields_inv hfields
      obtain ⟨s, _, hret, _⟩ := asStrField_inv hr
      obtain ⟨js, _, hjs⟩ := decodeItemsField_inv hits
      have hretail : pyStrip r.retailer = r.retailer := by
        rw [hret]
        exact pyStrip_idem s
      have hallitems :
          r.items.all (fun it => pyStrip it.shortDescription == it.shortDescription) = true := by
        apply List.all_eq_true.mpr
        intro it hit
        obtain ⟨j2, hj2⟩ := decodeItems_mem hjs hit
        obtain ⟨s2, hdesc, _⟩ := decodeItem_desc hj2
        rw [hdesc, pyStrip_idem]
        simp
      show get_validated_receipt r = some r
      unfold get_validated_receipt
      rw [if_pos hretail, if_pos hallitems]
  · decide

/-- C5: the afternoon rule awards 10 exactly on the closed-open window
[14:00, 16:00) of the parsed time, with the spec's five boundary cases. -/
theorem claim_C5 :
    (∀ t h m, strptimeTime t = some (h, m) →
      rule7Points t = some (if 840 ≤ 60 * h + m ∧ 60 * h + m < 960 then (10 : Int) else 0)) ∧
    rule7Points ("13:59".toList) = some 0 ∧
    rule7Points ("14:00".toList) = some 10 ∧
    rule7Points ("15:59".toList) = some 10 ∧
    rule7Points ("16:00".toList) = some 0 ∧
    rule7Points ("16:01".toList) = some 0 := by
  refine ⟨?_, by decide, by decide, by decide, by decide, by decide⟩
  intro t h m hp
  have hm := strptimeTime_minute_le hp
  have hiff : (14 ≤ h ∧ h < 16) ↔ (840 ≤ 60 * h + m ∧ 60 * h + m < 960) := by omega
  unfold rule7Points
  rw [hp]
  show some (hourPoints h) = _
  unfold hourPoints
  rw [if_congr hiff rfl rfl]

/-- C5 witness at the boundary 14:00. -/
theorem claim_C5_witness :
    rule7Points ("14:00".toList) =
      some (if 840 ≤ 60 * 14 + 0 ∧ 60 * 14 + 0 < 960 then (10 : Int) else 0) :=
  claim_C5.1 ("14:00".toList) 14 0 (by decide)

/-- C6: a document is accepted only if the combined string
`purchaseDate ++ " " ++ purchaseTime` parses under `%Y-%m-%d %H:%M`; in
particular `2022-02-30` matches the per-field date regex yet its document is
rejected. -/
theorem claim_C6 :
    (∀ j r, decodeReceipt j = some r → ∃ fs d t, j = JVal.jobj fs ∧
      jfieldGet fs dateKey = some (JVal.jstr d) ∧
      jfieldGet fs timeKey = some (JVal.jstr t) ∧
      (strptimeDateTime (d ++ ' ' :: t)).isSome = true) ∧
    matchesDateField ("2022-02-30".toList) = true ∧
    decodeReceipt (JVal.jobj feb30Fields) = none := by
  refine ⟨?_, by decide, by decide⟩
  intro j r h
  obtain ⟨fs, rfl, hbefore, _, _⟩ := decodeReceipt_inv h
  have hcomb : combinedDatetimeOk fs = true := by
    simp only [receiptBeforeOk, Bool.and_eq_true] at hbefore
    exact hbefore.1
  obtain ⟨d, t, hd, ht, hparse⟩ := combinedDatetimeOk_inv hcomb
  exact ⟨fs, d, t, rfl, hd, ht, hparse⟩

/-- C6 witness on the accepted scenario document. -/
theorem claim_C6_witness :
    ∃ fs d t, JVal.jobj targetFields = JVal.jobj fs ∧
      jfieldGet fs dateKey = some (JVal.jstr d) ∧
      jfieldGet fs timeKey = some (JVal.jstr t) ∧
      (strptimeDateTime (d ++ ' ' :: t)).isSome = true :=
  claim_C6.1 (JVal.jobj targetFields) targetReceipt (by decide)

/-- Rejections are uniform: if an accepted parse is impossible the decoder
answers `none`. -/
theorem decodeReceipt_obj_none {fs : List (String × JVal)}
    (H : ∀ r, decodeReceipt (JVal.jobj fs) = some r → False) :
    decodeReceipt (JVal.jobj fs) = none := by
  cases h : decodeReceipt (JVal.jobj fs) with
  | none => rfl
  | some r => exact (H r h).elim

/-- C7: the validator rejects any non-object document, any extra field, any
missing required field, `null` in any required field, and an empty `items`
array. -/
theorem claim_C7 :
    (∀ j, (∀ fs, j ≠ JVal.jobj fs) → decodeReceipt j = none) ∧
    (∀ fs k v, (k, v) ∈ fs → ¬ k ∈ receiptKeys → decodeReceipt (JVal.jobj fs) = none) ∧
    (∀ fs k, k ∈ receiptKeys → jfieldGet fs k = none → decodeReceipt (JVal.jobj fs) = none) ∧
    (∀ fs k, k ∈ receiptKeys → jfieldGet fs k = some JVal.jnull →
      decodeReceipt (JVal.jobj fs) = none) ∧
    (∀ fs, jfieldGet fs itemsKey = some (JVal.jarr []) → decodeReceipt (JVal.jobj fs) = none) := by
  refine ⟨?_, ?_, ?_, ?_, ?_⟩
  · intro j hne
    match j with
    | JVal.jstr s => rfl
    | JVal.jnum n => rfl
    | JVal.jnull => rfl
    | JVal.jarr l => rfl
    | JVal.jobj fs => exact (hne fs rfl).elim
  · intro fs k v hmem hnot
    apply decodeReceipt_obj_none
    intro r h
    obtain ⟨fs2, heq, _, hkeys, _⟩ := decodeReceipt_inv h
    injection heq with heq2
    subst heq2
    have := List.all_eq_true.mp hkeys (k, v) hmem
    simp at this
    exact hnot this
  · intro fs k hk hget
    apply decodeReceipt_obj_none
    intro r h
    obtain ⟨fs2, heq, _, _, hfields⟩ := decodeReceipt_inv h
    injection heq with heq2
    subst heq2
    obtain ⟨h1, h2, h3, h4, h5, _⟩ := decodeReceiptFields_inv hfields
    simp only [receiptKeys, List.mem_cons, List.not_mem_nil, or_false] at hk
    rcases hk with rfl | rfl | rfl | rfl | rfl
    · rw [hget] at h1; simp [asStrField] at h1
    · rw [hget] at h2; simp [asStrField] at h2
    · rw [hget] at h3; simp [asStrField] at h3
    · rw [hget] at h4; simp [decodeItemsField] at h4
    · rw [hget] at h5; simp [asStrField] at h5
  · intro fs k hk hget
    apply decodeReceipt_obj_none
    intro r h
    obtain ⟨fs2, heq, _, _, hfields⟩ := decodeReceipt_inv h
    injection heq with heq2
    subst heq2
    obtain ⟨h1, h2, h3, h4, h5, _⟩ := decodeReceiptFields_inv hfields
    simp only [receiptKeys, List.mem_cons, List.not_mem_nil, or_false] at hk
    rcases hk with rfl | rfl | rfl | rfl | rfl
    · rw [hget] at h1; simp [asStrField] at h1
    · rw [hget] at h2; simp [asStrField] at h2
    · rw [hget] at h3; simp [asStrField] at h3
    · rw [hget] at h4; simp [decodeItemsField] at h4
    · rw [hget] at h5; simp [asStrField] at h5
  · intro fs hget
    apply decodeReceipt_obj_none
    intro r h
    obtain ⟨fs2, heq, _, _, hfields⟩ := decodeReceipt_inv h
    injection heq with heq2
    subst heq2
    obtain ⟨_, _, _, h4, _, hlen⟩ := decodeReceiptFields_inv hfields
    rw [hget] at h4
    simp [decodeItemsField, decodeItems] at h4
    rw [h4] at hlen
    simp at hlen

/-- C7 witness: one undeclared extra field on the scenario document. -/
theorem claim_C7_witness : decodeReceipt (JVal.jobj extraKeyFields) = none :=
  claim_C7.2.1 extraKeyFields fooKey JVal.jnull (List.mem_cons_self _ _) (by decide)

/-- C8, failing input: the validator approves a receipt whose item price is
`10^329` dollars, but `calculate_points` fails on it — `float(price)` is
`inf` and `math.ceil(inf * 0.2)` raises `OverflowError`. -/
theorem claim_C8_bug :
    decodeReceipt (JVal.jobj hugePriceFields) = some hugePriceReceipt ∧
    calculate_points hugePriceReceipt = none := by
  exact ⟨by decide, by decide⟩

/-- A fresh insert is found alive by an immediate lookup. -/
theorem lookup_insert (st : Store) (id : String) (rd : ReceiptData) (now ttl : Nat)
    (h : 0 < ttl) : lookupStore (insertStore st id rd now ttl) id now = some rd := by
  unfold insertStore lookupStore
  rw [List.find?_cons_of_pos]
  · show (if now < now + ttl then some rd else none) = some rd
    rw [if_pos (by omega)]
  · simp

/-- C9: processing a receipt and immediately looking the returned id up yields
exactly the points computed at processing time. -/
theorem claim_C9 : ∀ (st : Store) (id : String) (r : Receipt) (now ttl : Nat)
    (st' : Store) (id' : String), 0 < ttl →
    process_receipt st id r now ttl = some (st', id') →
    get_points st' id' now = calculate_points r := by
  intro st id r now ttl st' id' httl h
  unfold process_receipt at h
  cases hc : calculate_points r with
  | none => rw [hc] at h; simp at h
  | some p =>
    rw [hc] at h
    simp at h
    obtain ⟨hst, hid⟩ := h
    subst hst
    subst hid
    unfold get_points
    rw [lookup_insert st id ⟨r, p⟩ now ttl httl]
    rfl

/-- C9 witness: store the scenario receipt and read its points back. -/
theorem claim_C9_witness :
    get_points (insertStore [] demoId ⟨targetReceipt, 14⟩ 0 86400) demoId 0 =
      calculate_points targetReceipt :=
  claim_C9 [] demoId targetReceipt 0 86400
    (insertStore [] demoId ⟨targetReceipt, 14⟩ 0 86400) demoId
    (by decide) (by decide)

/-- C10: every item of an accepted receipt stores a self-stripped, nonempty
description, so the scorer's multiple-of-3 test on the trimmed length never
sees length 0 and coincides with the positive-multiple-of-3 condition. -/
theorem claim_C10 : ∀ (j : JVal) (r : Receipt), decodeReceipt j = some r →
    ∀ it ∈ r.items,
      pyStrip it.shortDescription = it.shortDescription ∧
      1 ≤ it.shortDescription.length ∧
      ((pyStrip it.shortDescription).length % 3 = 0 ↔
        0 < (pyStrip it.shortDescription).length ∧
          (pyStrip it.shortDescription).length % 3 = 0) := by
  intro j r h it hit
  obtain ⟨fs, rfl, _, _, hfields⟩ := decodeReceipt_inv h
  obtain ⟨_, _, _, hitems, _, _⟩ := decodeReceiptFields_inv hfields
  obtain ⟨js, _, hjs⟩ := decodeItemsField_inv hitems
  obtain ⟨j2, hj2⟩ := decodeItems_mem hjs hit
  obtain ⟨s, hdesc, hpat⟩ := decodeItem_desc hj2
  have hstrip : pyStrip it.shortDescription = it.shortDescription := by
    rw [hdesc]
    exact pyStrip_idem s
  have hne : it.shortDescription ≠ [] := by
    rw [hdesc]
    exact matchesDesc_ne_nil hpat
  have hlen : 1 ≤ it.shortDescription.length := by
    cases hc : it.shortDescription with
    | nil => exact absurd hc hne
    | cons a l => simp
  refine ⟨hstrip, hlen, ?_⟩
  rw [hstrip]
  constructor
  · intro h3
    exact ⟨by omega, h3⟩
  · intro h3
    exact h3.2

/-- C10 witness on the scenario document's single item. -/
theorem claim_C10_witness :
    pyStrip mountainDewItem.shortDescription = mountainDewItem.shortDescription ∧
    1 ≤ mountainDewItem.shortDescription.length ∧
    ((pyStrip mountainDewItem.shortDescription).length % 3 = 0 ↔
      0 < (pyStrip mountainDewItem.shortDescription).length ∧
        (pyStrip mountainDewItem.shortDescription).length % 3 = 0) :=
  claim_C10 (JVal.jobj targetFields) targetReceipt (by decide) mountainDewItem (by decide)
